import Mathlib

/-!
Verification of the request-evaluation pipeline of `cedar-py` (`src/lib.rs`).

The file shallowly embeds the Rust source.  The external crate
`cedar_policy` (the decision oracle, the policy/schema/entity parsers) is
out of scope per the specification, so it is modelled as a bundle of
abstract operations (`CedarLib`) over abstract carrier types; every
function of the repository itself is translated directly from the source.
Rust `panic!`/`unwrap` is modelled as `Option.none`; wall-clock timing
(`Instant::now`) is modelled as an explicit `Timings` input; `println!`
output is dropped (the spec places logging out of scope).  Serialized JSON
responses are modelled as structured `JsonVal` documents (the exact trees
that `serde_json`/`json!` would render to strings).
-/

namespace CedarPy

/-- Decision of the cedar `Authorizer` (external crate type `Decision`). -/
inductive Decision where
  | allow
  | deny
deriving DecidableEq

/-- Mirror of `DecisionSer` from `src/lib.rs` (lines 246-255). -/
inductive DecisionSer where
  | Allow
  | Deny
deriving DecidableEq

/-- Model of the cedar crate's `Response`: a decision plus diagnostics
(the `PolicyId` reason set and the evaluation errors, both as strings). -/
structure Response where
  decision : Decision
  reason : List String
  errors : List String

/-- Mirror of the `AuthzResponse` struct of `src/lib.rs` (lines 257-271).
`DiagnosticsSer` is inlined as the `reason`/`errors` fields; the metrics
`HashMap<String, u128>` is an association list. -/
structure AuthzResponse where
  decision : DecisionSer
  correlation_id : Option String
  reason : List String
  errors : List String
  metrics : List (String × Nat)

/-- Mirror of `AuthzResponse::new` (lines 273-289). -/
def AuthzResponse.new (response : Response) (metrics : List (String × Nat))
    (correlation_id : Option String) : AuthzResponse :=
  { decision :=
      match response.decision with
      | .allow => DecisionSer.Allow
      | .deny => DecisionSer.Deny
    correlation_id := correlation_id
    reason := response.reason
    errors := response.errors
    metrics := metrics }

/-- JSON documents, modelling the strings produced by `serde_json`. -/
inductive JsonVal where
  | str (s : String)
  | num (n : Nat)
  | arr (xs : List JsonVal)
  | obj (fields : List (String × JsonVal))
  | null

/-- Lookup of a field in a JSON object field list. -/
def lookupField : List (String × JsonVal) → String → Option JsonVal
  | [], _ => none
  | (k, v) :: rest, key => if k = key then some v else lookupField rest key

/-- Field access on a JSON document: `none` unless an object with the key. -/
def JsonVal.getField (j : JsonVal) (key : String) : Option JsonVal :=
  match j with
  | .obj fields => lookupField fields key
  | _ => none

/-- The operations this repository uses from the external `cedar_policy`
crate (and `serde_json` serialization of `AuthzResponse`), abstracted over
the crate's opaque carrier types.  Parse failures carry their display
message.  `serializeOk`/`serializeErrMsg` model whether
`serde_json::to_string(&ans)` succeeds and, if not, its error message. -/
structure CedarLib (P S E U C R : Type) where
  policySetFromStr : String → Except String P
  emptyPolicySet : P
  schemaFromJsonStr : String → Except String S
  schemaFromStr : String → Except String S
  entitiesFromJsonStr : String → Option S → Except String E
  emptyEntities : E
  parseEntityUid : String → Except String U
  contextFromJsonStr : String → Option (S × U) → Except String C
  emptyContext : C
  requestNew : U → U → U → C → Option S → Except String R
  isAuthorized : R → P → E → Response
  serializeOk : AuthzResponse → Bool
  serializeErrMsg : AuthzResponse → String

/-- Model of one raw request `HashMap<String, String>`: the source only
ever reads the five recognized keys, so the map is represented by the
result of `get` on each of them. -/
structure RawRequest where
  principal : Option String
  action : Option String
  resource : Option String
  context : Option String
  correlation_id : Option String

/-- Mirror of the `RequestArgs` struct (lines 59-72). -/
structure RequestArgs where
  principal : String
  action : String
  resource : String
  context_json : Option String
  correlation_id : Option String

/-- Mirror of `to_request_args` (lines 214-234).  The source calls
`.unwrap()` on the `principal`, `action` and `resource` lookups, which
panics when the key is missing; the panic is modelled as `none`. -/
def to_request_args (request : RawRequest) : Option RequestArgs :=
  match request.principal, request.action, request.resource with
  | some principal, some action, some resource =>
      some { principal := principal
             action := action
             resource := resource
             context_json := request.context
             correlation_id := request.correlation_id }
  | _, _, _ => none

variable {P S E U C R : Type}

/-- Mirror of `RequestArgs::get_request` (lines 74-90).  The `anyhow`
`.context(...)` calls replace the displayed message with the context
string, which is what `stringify_errors` later prints. -/
def RequestArgs.get_request (lib : CedarLib P S E U C R) (args : RequestArgs)
    (schema : Option S) : Except String R :=
  match lib.parseEntityUid args.principal with
  | .error _ => .error "Failed to parse principal as entity Uid"
  | .ok principal =>
    match lib.parseEntityUid args.action with
    | .error _ => .error "Failed to parse action as entity Uid"
    | .ok action =>
      match lib.parseEntityUid args.resource with
      | .error _ => .error "Failed to parse resource as entity Uid"
      | .ok resource =>
        let context : Except String C :=
          match args.context_json with
          | none => .ok lib.emptyContext
          | some context_json_str =>
              lib.contextFromJsonStr context_json_str
                (schema.map (fun s => (s, action)))
        match context with
        | .error e => .error e
        | .ok ctx => lib.requestNew principal action resource ctx schema

/-- Mirror of `execute_authorization_request` (lines 292-329).  The two
`Instant` measurements are the explicit `build_dur`/`authz_dur` inputs.
The single collected error is the outermost `anyhow` context message
`"failed to parse schema from request"` (line 306). -/
def execute_authorization_request (lib : CedarLib P S E U C R)
    (build_dur authz_dur : Nat) (request_args : RequestArgs) (policy_set : P)
    (entities : E) (schema : Option S) (verbose : Bool) :
    Except (List String) AuthzResponse :=
  match request_args.get_request lib schema with
  | .error _ => .error ["failed to parse schema from request"]
  | .ok request =>
      let metrics := [("build_request_duration_micros", build_dur),
                      ("authz_duration_micros", authz_dur)]
      .ok (AuthzResponse.new (lib.isAuthorized request policy_set entities)
            metrics request_args.correlation_id)

/-- Mirror of `make_schema` (lines 341-379): absent input gives `none`;
otherwise trim, return `none` on whitespace-only input, probe the leading
character, and attempt exactly one of the two parsers, mapping failure to
`none`. -/
def make_schema (lib : CedarLib P S E U C R) (schema_str : Option String)
    (verbose : Bool) : Option S :=
  match schema_str with
  | none => none
  | some schema_src =>
    let trimmed_schema_src := schema_src.trim
    if trimmed_schema_src.isEmpty then none
    else if trimmed_schema_src.startsWith "\x7b" then
      match lib.schemaFromJsonStr trimmed_schema_src with
      | .ok schema => some schema
      | .error _ => none
    else
      match lib.schemaFromStr trimmed_schema_src with
      | .ok schema => some schema
      | .error _ => none

/-- Mirror of `load_entities` (lines 381-386); the `anyhow` context makes
the displayed message `"failed to parse entities from:\n" ++ input`. -/
def load_entities (lib : CedarLib P S E U C R) (entities_str : String)
    (schema : Option S) : Except String E :=
  match lib.entitiesFromJsonStr entities_str schema with
  | .ok entities => .ok entities
  | .error _ => .error ("failed to parse entities from:\n" ++ entities_str)

/-- Mirror of `make_entities` (lines 331-339): on failure the error is
pushed onto the shared error list and the store falls back to empty. -/
def make_entities (lib : CedarLib P S E U C R) (entities_str : String)
    (schema : Option S) (errs : List String) : E × List String :=
  match load_entities lib entities_str schema with
  | .ok entities => (entities, errs)
  | .error e => (lib.emptyEntities, errs ++ [e])

/-- Mirror of `stringify_errors` (lines 210-212); errors are already
modelled by their display strings. -/
def stringify_errors (errs : List String) : List String :=
  errs.map (fun e => e)

/-- Mirror of `make_authz_result_for_errors` (lines 198-208): the fixed
`json!` document with only a decision and a diagnostics error list. -/
def make_authz_result_for_errors (errs : List String) : JsonVal :=
  JsonVal.obj
    [("decision", JsonVal.str "NoDecision"),
     ("diagnostics", JsonVal.obj
        [("errors", JsonVal.arr ((stringify_errors errs).map JsonVal.str))])]

/-- Result of the shared (batch-scoped) stage of `is_authorized_batch`
(lines 119-145): parsed policy set, schema, entity store and the shared
error list. -/
structure SharedState (P S E : Type) where
  policy_set : P
  schema : Option S
  entities : E
  errs : List String

/-- The shared stage of `is_authorized_batch` (lines 119-145): parse
policies (failure recorded, empty set substituted), parse schema, load
entities. -/
def batchShared (lib : CedarLib P S E U C R) (policies entities_str : String)
    (schema_str : Option String) (verbose : Bool) : SharedState P S E :=
  let policyStage :=
    match lib.policySetFromStr policies with
    | .ok pset => (pset, ([] : List String))
    | .error parse_errors =>
        (lib.emptyPolicySet, ["policy parse errors:\n" ++ parse_errors])
  let schema := make_schema lib schema_str verbose
  let entityStage := make_entities lib entities_str schema policyStage.2
  { policy_set := policyStage.1
    schema := schema
    entities := entityStage.1
    errs := entityStage.2 }

/-- Per-item wall-clock measurements of the batch, indexed by item
position (the shared-stage durations are batch-wide). -/
structure Timings where
  parse_policies_d : Nat
  parse_schema_d : Nat
  load_entities_d : Nat
  build_request_d : Nat → Nat
  authz_d : Nat → Nat

/-- Mirror of `HashMap::insert`: replace the value at the key, or append. -/
def insertMetric : List (String × Nat) → String → Nat → List (String × Nat)
  | [], k, v => [(k, v)]
  | (k', v') :: rest, k, v =>
      if k' = k then (k, v) :: rest else (k', v') :: insertMetric rest k v

/-- Rendering of an `AuthzResponse` as the JSON document produced by
`serde_json::to_string` (struct fields in declaration order; a `None`
correlation id serializes as JSON `null`). -/
def authzResponseToJson (ans : AuthzResponse) : JsonVal :=
  JsonVal.obj
    [("decision", JsonVal.str
        (match ans.decision with
         | .Allow => "Allow"
         | .Deny => "Deny")),
     ("correlation_id",
        match ans.correlation_id with
        | none => JsonVal.null
        | some s => JsonVal.str s),
     ("diagnostics", JsonVal.obj
        [("reason", JsonVal.arr (ans.reason.map JsonVal.str)),
         ("errors", JsonVal.arr (ans.errors.map JsonVal.str))]),
     ("metrics", JsonVal.obj (ans.metrics.map (fun p => (p.1, JsonVal.num p.2))))]

/-- Body of the per-item loop of `is_authorized_batch` (lines 156-193):
with no shared errors, evaluate and serialize (metrics for the three
shared stages are inserted first; a serialization failure falls back to
an error result); with shared errors, emit the shared error result. -/
def processItem (lib : CedarLib P S E U C R) (t : Timings)
    (shared : SharedState P S E) (verbose : Bool) (i : Nat)
    (request_args : RequestArgs) : JsonVal :=
  if shared.errs.isEmpty then
    match execute_authorization_request lib (t.build_request_d i) (t.authz_d i)
        request_args shared.policy_set shared.entities shared.schema verbose with
    | .ok ans =>
        let m1 := insertMetric ans.metrics
          "parse_policies_duration_micros" t.parse_policies_d
        let m2 := insertMetric m1 "parse_schema_duration_micros" t.parse_schema_d
        let m3 := insertMetric m2 "load_entities_duration_micros" t.load_entities_d
        let ans2 := { ans with metrics := m3 }
        if lib.serializeOk ans2 then authzResponseToJson ans2
        else make_authz_result_for_errors [lib.serializeErrMsg ans2]
    | .error errs => make_authz_result_for_errors errs
  else make_authz_result_for_errors shared.errs

/-- The request-args building loop (lines 148-151): `to_request_args` on
each raw request in order; a panic anywhere aborts the whole call. -/
def build_request_args : List RawRequest → Option (List RequestArgs)
  | [] => some []
  | request :: rest =>
      match to_request_args request with
      | none => none
      | some args =>
          match build_request_args rest with
          | none => none
          | some argsRest => some (args :: argsRest)

/-- The evaluation loop (lines 156-193), carrying the item index used to
select that item's measured durations. -/
def eval_items (lib : CedarLib P S E U C R) (t : Timings)
    (shared : SharedState P S E) (verbose : Bool) :
    Nat → List RequestArgs → List JsonVal
  | _, [] => []
  | i, args :: rest =>
      processItem lib t shared verbose i args ::
        eval_items lib t shared verbose (i + 1) rest

/-- Mirror of `is_authorized_batch` (lines 103-196).  The result is `none`
exactly when the source panics (a raw request missing a required key);
otherwise it is the list of serialized responses as JSON documents. -/
def is_authorized_batch (lib : CedarLib P S E U C R) (t : Timings)
    (requests : List RawRequest) (policies entities_str : String)
    (schema_str : Option String) (verbose : Option Bool) :
    Option (List JsonVal) :=
  let v := verbose.getD false
  let shared := batchShared lib policies entities_str schema_str v
  match build_request_args requests with
  | none => none
  | some request_args_vec =>
      some (eval_items lib t shared v 0 request_args_vec)

/-! Concrete instantiations used to evaluate the pipeline at specific
inputs: a library over `Unit` carriers in which every external operation
succeeds, and variants in which one chosen external parser fails. -/

/-- A `CedarLib` instance over `Unit` carriers in which every external
operation succeeds and the oracle always allows. -/
def okLib : CedarLib Unit Unit Unit Unit Unit Unit where
  policySetFromStr := fun _ => .ok ()
  emptyPolicySet := ()
  schemaFromJsonStr := fun _ => .ok ()
  schemaFromStr := fun _ => .ok ()
  entitiesFromJsonStr := fun _ _ => .ok ()
  emptyEntities := ()
  parseEntityUid := fun _ => .ok ()
  contextFromJsonStr := fun _ _ => .ok ()
  emptyContext := ()
  requestNew := fun _ _ _ _ _ => .ok ()
  isAuthorized := fun _ _ _ => { decision := .allow, reason := ["policy0"], errors := [] }
  serializeOk := fun _ => true
  serializeErrMsg := fun _ => "serde error"

/-- Like `okLib` but policy-set parsing fails. -/
def badPolicyLib : CedarLib Unit Unit Unit Unit Unit Unit :=
  { okLib with policySetFromStr := fun _ => .error "bad policy" }

/-- Like `okLib` but entity-uid parsing fails. -/
def badUidLib : CedarLib Unit Unit Unit Unit Unit Unit :=
  { okLib with parseEntityUid := fun _ => .error "bad uid" }

/-- Like `okLib` but entity-store parsing fails. -/
def badEntLib : CedarLib Unit Unit Unit Unit Unit Unit :=
  { okLib with entitiesFromJsonStr := fun _ _ => .error "bad entities" }

/-- Zero timings. -/
def t0 : Timings :=
  { parse_policies_d := 0
    parse_schema_d := 0
    load_entities_d := 0
    build_request_d := fun _ => 0
    authz_d := fun _ => 0 }

/-- A raw request carrying the three required keys and a correlation id. -/
def rawWithCid : RawRequest :=
  { principal := some "User::alice"
    action := some "Action::view"
    resource := some "File::f"
    context := none
    correlation_id := some "req-42" }

/-- A raw request carrying only the three required keys. -/
def rawGood : RawRequest :=
  { principal := some "User::alice"
    action := some "Action::view"
    resource := some "File::f"
    context := none
    correlation_id := none }

/-- Typed request arguments with all identifiers present. -/
def requestArgsGood : RequestArgs :=
  { principal := "User::alice"
    action := "Action::view"
    resource := "File::f"
    context_json := none
    correlation_id := none }

/-- A raw request map that lacks the required `principal` key. -/
def rawMissingPrincipal : RawRequest :=
  { principal := none
    action := some "Action::view"
    resource := some "File::f"
    context := none
    correlation_id := none }

/-! Helper lemmas about the embedded pipeline. -/

theorem stringify_errors_eq (errs : List String) : stringify_errors errs = errs := by
  simp [stringify_errors]

theorem getField_errors_decision (es : List String) :
    (make_authz_result_for_errors es).getField "decision" =
      some (JsonVal.str "NoDecision") := rfl

theorem getField_errors_cid (es : List String) :
    (make_authz_result_for_errors es).getField "correlation_id" = none := rfl

theorem getField_errors_metrics (es : List String) :
    (make_authz_result_for_errors es).getField "metrics" = none := rfl

theorem getField_response_decision (ans : AuthzResponse) :
    (authzResponseToJson ans).getField "decision" =
      some (JsonVal.str
        (match ans.decision with
         | .Allow => "Allow"
         | .Deny => "Deny")) := rfl

theorem getField_response_cid (ans : AuthzResponse) :
    (authzResponseToJson ans).getField "correlation_id" =
      some (match ans.correlation_id with
            | none => JsonVal.null
            | some s => JsonVal.str s) := rfl

theorem getField_response_metrics (ans : AuthzResponse) :
    (authzResponseToJson ans).getField "metrics" =
      some (JsonVal.obj (ans.metrics.map (fun p => (p.1, JsonVal.num p.2)))) := rfl

theorem eval_items_length (lib : CedarLib P S E U C R) (t : Timings)
    (sh : SharedState P S E) (v : Bool) :
    ∀ (i : Nat) (as : List RequestArgs),
      (eval_items lib t sh v i as).length = as.length := by
  intro i as
  induction as generalizing i with
  | nil => rfl
  | cons a as ih => simp [eval_items, ih]

theorem eval_items_get (lib : CedarLib P S E U C R) (t : Timings)
    (sh : SharedState P S E) (v : Bool) :
    ∀ (as : List RequestArgs) (i j : Nat)
      (hj : j < (eval_items lib t sh v i as).length) (hj' : j < as.length),
      (eval_items lib t sh v i as).get ⟨j, hj⟩ =
        processItem lib t sh v (i + j) (as.get ⟨j, hj'⟩) := by
  intro as
  induction as with
  | nil => intro i j hj hj'; exact absurd hj' (by simp)
  | cons a as ih =>
    intro i j hj hj'
    cases j with
    | zero => simp [eval_items]
    | succ j =>
      have h1 : i + 1 + j = i + (j + 1) := by omega
      simpa [eval_items, h1] using ih (i + 1) j (by simpa [eval_items_length] using hj') (by simpa using hj')

theorem mem_eval_items (lib : CedarLib P S E U C R) (t : Timings)
    (sh : SharedState P S E) (v : Bool) :
    ∀ (i : Nat) (as : List RequestArgs) (r : JsonVal),
      r ∈ eval_items lib t sh v i as →
      ∃ j args, args ∈ as ∧ r = processItem lib t sh v j args := by
  intro i as
  induction as generalizing i with
  | nil => intro r hr; exact absurd hr (by simp [eval_items])
  | cons a as ih =>
    intro r hr
    rcases List.mem_cons.mp hr with h | h
    · exact ⟨i, a, List.mem_cons_self a as, h⟩
    · obtain ⟨j, args, hmem, heq⟩ := ih (i + 1) r h
      exact ⟨j, args, List.mem_cons_of_mem a hmem, heq⟩

theorem processItem_of_errs (lib : CedarLib P S E U C R) (t : Timings)
    (sh : SharedState P S E) (v : Bool) (i : Nat) (args : RequestArgs)
    (h : sh.errs ≠ []) :
    processItem lib t sh v i args = make_authz_result_for_errors sh.errs := by
  cases hE : sh.errs with
  | nil => exact absurd hE h
  | cons e es => simp [processItem, hE]

theorem execute_ok_shape (lib : CedarLib P S E U C R) (b a : Nat)
    (args : RequestArgs) (ps : P) (ents : E) (sch : Option S) (v : Bool)
    (ans : AuthzResponse)
    (h : execute_authorization_request lib b a args ps ents sch v = .ok ans) :
    ans.correlation_id = args.correlation_id ∧
    ans.metrics = [("build_request_duration_micros", b), ("authz_duration_micros", a)] := by
  unfold execute_authorization_request at h
  cases hq : args.get_request lib sch with
  | error e => rw [hq] at h; exact Except.noConfusion h
  | ok q =>
    rw [hq] at h
    have := Except.ok.inj h
    subst this
    exact ⟨rfl, rfl⟩

theorem processItem_shape (lib : CedarLib P S E U C R) (t : Timings)
    (sh : SharedState P S E) (v : Bool) (i : Nat) (args : RequestArgs) :
    (∃ es, processItem lib t sh v i args = make_authz_result_for_errors es) ∨
    (∃ d rs errs, processItem lib t sh v i args =
        authzResponseToJson
          { decision := d
            correlation_id := args.correlation_id
            reason := rs
            errors := errs
            metrics := [("build_request_duration_micros", t.build_request_d i),
                        ("authz_duration_micros", t.authz_d i),
                        ("parse_policies_duration_micros", t.parse_policies_d),
                        ("parse_schema_duration_micros", t.parse_schema_d),
                        ("load_entities_duration_micros", t.load_entities_d)] }) := by
  by_cases hE : sh.errs.isEmpty
  · cases hx : execute_authorization_request lib (t.build_request_d i) (t.authz_d i)
        args sh.policy_set sh.entities sh.schema v with
    | error es =>
      exact .inl ⟨es, by simp [processItem, hE, hx]⟩
    | ok ans =>
      obtain ⟨hcid, hm⟩ := execute_ok_shape lib _ _ args _ _ _ v ans hx
      obtain ⟨d, cid, rs, errs, m⟩ := ans
      simp only at hcid hm
      subst hcid
      subst hm
      by_cases hser : lib.serializeOk
          { decision := d
            correlation_id := args.correlation_id
            reason := rs
            errors := errs
            metrics := [("build_request_duration_micros", t.build_request_d i),
                        ("authz_duration_micros", t.authz_d i),
                        ("parse_policies_duration_micros", t.parse_policies_d),
                        ("parse_schema_duration_micros", t.parse_schema_d),
                        ("load_entities_duration_micros", t.load_entities_d)] }
      · refine .inr ⟨d, rs, errs, ?_⟩
        simp [processItem, hE, hx, insertMetric, hser]
      · refine .inl ⟨[lib.serializeErrMsg
          { decision := d
            correlation_id := args.correlation_id
            reason := rs
            errors := errs
            metrics := [("build_request_duration_micros", t.build_request_d i),
                        ("authz_duration_micros", t.authz_d i),
                        ("parse_policies_duration_micros", t.parse_policies_d),
                        ("parse_schema_duration_micros", t.parse_schema_d),
                        ("load_entities_duration_micros", t.load_entities_d)] }], ?_⟩
        simp [processItem, hE, hx, insertMetric, hser]
  · exact .inl ⟨sh.errs, processItem_of_errs lib t sh v i args
      (by simpa [List.isEmpty_iff] using hE)⟩

theorem build_request_args_of_isSome :
    ∀ (rs : List RawRequest), (∀ r ∈ rs, (to_request_args r).isSome) →
      ∃ as, build_request_args rs = some as ∧ as.length = rs.length ∧
        ∀ (j : Nat) (hj : j < as.length) (hr : j < rs.length),
          to_request_args (rs.get ⟨j, hr⟩) = some (as.get ⟨j, hj⟩) := by
  intro rs
  induction rs with
  | nil =>
    intro _
    exact ⟨[], rfl, rfl, by intro j hj hr; exact absurd hr (by simp)⟩
  | cons r rs ih =>
    intro h
    obtain ⟨a, ha⟩ := Option.isSome_iff_exists.mp (h r (List.mem_cons_self r rs))
    obtain ⟨as, has, hlen, hget⟩ := ih (fun x hx => h x (List.mem_cons_of_mem r hx))
    refine ⟨a :: as, by simp [build_request_args, ha, has], by simp [hlen], ?_⟩
    intro j hj hr
    cases j with
    | zero => simpa using ha
    | succ j => simpa using hget j (by simpa using hj) (by simpa using hr)

theorem batchShared_errs_policy_fail (lib : CedarLib P S E U C R)
    (p e : String) (s : Option String) (v : Bool) (m : String)
    (h : lib.policySetFromStr p = .error m) :
    ∃ tail, (batchShared lib p e s v).errs = ("policy parse errors:\n" ++ m) :: tail := by
  cases hle : load_entities lib e (make_schema lib s v) with
  | ok ents => exact ⟨[], by simp [batchShared, make_entities, h, hle]⟩
  | error msg => exact ⟨[msg], by simp [batchShared, make_entities, h, hle]⟩

theorem batchShared_entity_fail (lib : CedarLib P S E U C R)
    (p e : String) (s : Option String) (v : Bool) (msg : String)
    (h : load_entities lib e (make_schema lib s v) = .error msg) :
    (batchShared lib p e s v).entities = lib.emptyEntities ∧
    msg ∈ (batchShared lib p e s v).errs ∧
    (batchShared lib p e s v).errs ≠ [] := by
  cases hp : lib.policySetFromStr p <;>
    simp [batchShared, make_entities, h, hp]

theorem batchShared_errs_nil (lib : CedarLib P S E U C R)
    (p e : String) (s : Option String) (v : Bool)
    (hp : ∃ ps, lib.policySetFromStr p = .ok ps)
    (he : ∃ ents, lib.entitiesFromJsonStr e (make_schema lib s v) = .ok ents) :
    (batchShared lib p e s v).errs = [] := by
  obtain ⟨ps, hps⟩ := hp
  obtain ⟨ents, hents⟩ := he
  simp [batchShared, make_entities, load_entities, hps, hents]

theorem batch_some_elim (lib : CedarLib P S E U C R) (t : Timings)
    (rs : List RawRequest) (p e : String) (s : Option String)
    (v : Option Bool) (l : List JsonVal)
    (h : is_authorized_batch lib t rs p e s v = some l) :
    ∃ as, build_request_args rs = some as ∧
      l = eval_items lib t (batchShared lib p e s (v.getD false)) (v.getD false) 0 as := by
  unfold is_authorized_batch at h
  cases hb : build_request_args rs with
  | none => rw [hb] at h; exact Option.noConfusion h
  | some as =>
    rw [hb] at h
    exact ⟨as, rfl, (Option.some.inj h).symm⟩

theorem batch_some_intro (lib : CedarLib P S E U C R) (t : Timings)
    (rs : List RawRequest) (p e : String) (s : Option String)
    (v : Option Bool) (as : List RequestArgs)
    (h : build_request_args rs = some as) :
    is_authorized_batch lib t rs p e s v =
      some (eval_items lib t (batchShared lib p e s (v.getD false)) (v.getD false) 0 as) := by
  unfold is_authorized_batch
  rw [h]

theorem build_request_args_get :
    ∀ (rs : List RawRequest) (as : List RequestArgs),
      build_request_args rs = some as →
      as.length = rs.length ∧
      ∀ (j : Nat) (hj : j < as.length) (hr : j < rs.length),
        to_request_args (rs.get ⟨j, hr⟩) = some (as.get ⟨j, hj⟩) := by
  intro rs
  induction rs with
  | nil =>
    intro as h
    cases Option.some.inj h
    exact ⟨rfl, by intro j hj hr; exact absurd hr (by simp)⟩
  | cons r rs ih =>
    intro as h
    unfold build_request_args at h
    cases ha : to_request_args r with
    | none => rw [ha] at h; exact Option.noConfusion h
    | some a =>
      rw [ha] at h
      cases hrest : build_request_args rs with
      | none => rw [hrest] at h; exact Option.noConfusion h
      | some as' =>
        rw [hrest] at h
        cases Option.some.inj h
        obtain ⟨hlen, hget⟩ := ih as' hrest
        refine ⟨by simp [hlen], ?_⟩
        intro j hj hr
        cases j with
        | zero => simpa using ha
        | succ j => simpa using hget j (by simpa using hj) (by simpa using hr)

theorem make_schema_verbose (lib : CedarLib P S E U C R) (s : Option String)
    (v1 v2 : Bool) : make_schema lib s v1 = make_schema lib s v2 := rfl

theorem processItem_verbose (lib : CedarLib P S E U C R) (t : Timings)
    (sh : SharedState P S E) (v1 v2 : Bool) (i : Nat) (args : RequestArgs) :
    processItem lib t sh v1 i args = processItem lib t sh v2 i args := rfl

theorem batchShared_verbose (lib : CedarLib P S E U C R)
    (p e : String) (s : Option String) (v1 v2 : Bool) :
    batchShared lib p e s v1 = batchShared lib p e s v2 := rfl

theorem eval_items_verbose (lib : CedarLib P S E U C R) (t : Timings)
    (sh : SharedState P S E) (v1 v2 : Bool) :
    ∀ (i : Nat) (as : List RequestArgs),
      eval_items lib t sh v1 i as = eval_items lib t sh v2 i as := by
  intro i as
  induction as generalizing i with
  | nil => rfl
  | cons a as ih =>
    simp only [eval_items]
    exact congrArg₂ List.cons (processItem_verbose lib t sh v1 v2 i a) (ih (i + 1))

/-! Claim theorems. -/

/-- C6: the schema loader is total and branch-selects by a leading-character
probe: absent input yields `none`; whitespace-only input yields `none`;
otherwise the input is trimmed and, when the trimmed text begins with a
left brace, only the JSON parser is attempted, and otherwise only the
textual-grammar parser is attempted, each parse failure yielding `none`
(so evaluation proceeds as if no schema were given, with no cross-branch
fallback and no exception). -/
theorem c6_schema_loader_total (lib : CedarLib P S E U C R) (v : Bool) (s : String) :
    make_schema lib (none : Option String) v = none ∧
    make_schema lib (some s) v =
      (if s.trim.isEmpty then none
       else if s.trim.startsWith "\x7b" then (lib.schemaFromJsonStr s.trim).toOption
       else (lib.schemaFromStr s.trim).toOption) := by
  refine ⟨rfl, ?_⟩
  by_cases h1 : s.trim.isEmpty
  · simp [make_schema, h1]
  · by_cases h2 : s.trim.startsWith "\x7b"
    · cases hj : lib.schemaFromJsonStr s.trim <;>
        simp [make_schema, h1, h2, hj, Except.toOption]
    · cases hs : lib.schemaFromStr s.trim <;>
        simp [make_schema, h1, h2, hs, Except.toOption]

/-- C9: the verbose flag does not influence results at all: for every fixed
input, `is_authorized_batch` returns identical response lists (identical
decisions, diagnostics and metrics) under any two verbose settings. -/
theorem c9_verbose_irrelevant (lib : CedarLib P S E U C R) (t : Timings)
    (requests : List RawRequest) (policies entities_str : String)
    (schema_str : Option String) (v1 v2 : Option Bool) :
    is_authorized_batch lib t requests policies entities_str schema_str v1 =
    is_authorized_batch lib t requests policies entities_str schema_str v2 := by
  unfold is_authorized_batch
  cases hb : build_request_args requests with
  | none => rfl
  | some as =>
    simp only []
    exact congrArg some
      (eval_items_verbose lib t (batchShared lib policies entities_str schema_str (v1.getD false))
        (v1.getD false) (v2.getD false) 0 as)

/-- C3: the claim is violated by the code: a raw request map lacking the
required `principal` key makes `to_request_args` panic (the `.unwrap()` on
the missing key, modelled as `none`), and the panic propagates out of
`is_authorized_batch`, so the caller receives an exception instead of one
response per request with a field-specific error. -/
theorem c3_missing_key_panics :
    to_request_args rawMissingPrincipal = none ∧
    is_authorized_batch okLib t0 [rawGood, rawMissingPrincipal] "p" "e" none none = none :=
  ⟨rfl, rfl⟩

/-- C1 (counterexample): a batch of one raw request lacking the `principal`
key does not produce one response: the call panics (returns `none`), so
length preservation fails as stated. -/
theorem c1_length_counterexample :
    ¬ ∃ l, is_authorized_batch okLib t0 [rawMissingPrincipal] "p" "e" none none = some l ∧
        l.length = 1 := by
  rintro ⟨l, hl, -⟩
  exact Option.noConfusion hl

/-- C1 (amended): for every batch whose raw requests all carry the three
required keys, `is_authorized_batch` returns exactly one serialized
response per request, and the i-th response is the per-item pipeline
applied to the i-th input request's arguments — in input order, regardless
of how many items fail, including when shared policy or entity parsing
fails for the whole batch. -/
theorem c1_length_amended (lib : CedarLib P S E U C R) (t : Timings)
    (requests : List RawRequest) (policies entities_str : String)
    (schema_str : Option String) (verbose : Option Bool)
    (hkeys : ∀ r ∈ requests, (to_request_args r).isSome) :
    ∃ l, is_authorized_batch lib t requests policies entities_str schema_str verbose = some l ∧
      l.length = requests.length ∧
      ∀ (i : Nat) (hi : i < l.length) (hr : i < requests.length) (args : RequestArgs),
        to_request_args (requests.get ⟨i, hr⟩) = some args →
        l.get ⟨i, hi⟩ =
          processItem lib t
            (batchShared lib policies entities_str schema_str (verbose.getD false))
            (verbose.getD false) i args := by
  obtain ⟨as, has, hlen, hget⟩ := build_request_args_of_isSome requests hkeys
  refine ⟨_, batch_some_intro lib t requests policies entities_str schema_str verbose as has,
    by simp [eval_items_length, hlen], ?_⟩
  intro i hi hr args hargs
  have hj' : i < as.length := by
    rw [hlen]; exact hr
  have hglobal := hget i hj' hr
  rw [hargs] at hglobal
  rw [eval_items_get lib t _ _ as 0 i (by simpa [eval_items_length] using hj') hj']
  rw [← Option.some.inj hglobal]
  simp

/-- C1 (witness): a well-formed one-request batch yields exactly one
response. -/
theorem c1_length_amended_witness :
    ∃ l, is_authorized_batch okLib t0 [rawGood] "p" "e" none none = some l ∧ l.length = 1 := by
  obtain ⟨l, h1, h2, -⟩ := c1_length_amended okLib t0 [rawGood] "p" "e" none none
    (by intro r hr; rw [List.mem_singleton.mp hr]; rfl)
  exact ⟨l, h1, h2⟩

/-- C2: when the policy source text fails to parse, every response of the
batch is the shared-error result: decision `NoDecision`, a non-empty
diagnostics error list containing the recorded policy parse error, and no
item-specific content (per-item evaluation is skipped; every item gets the
same shared errors). -/
theorem c2_policy_poison (lib : CedarLib P S E U C R) (t : Timings)
    (requests : List RawRequest) (policies entities_str : String)
    (schema_str : Option String) (verbose : Option Bool) (msg : String)
    (hpol : lib.policySetFromStr policies = .error msg)
    (l : List JsonVal)
    (hl : is_authorized_batch lib t requests policies entities_str schema_str verbose = some l) :
    ∀ r ∈ l,
      r = make_authz_result_for_errors
            (batchShared lib policies entities_str schema_str (verbose.getD false)).errs ∧
      r.getField "decision" = some (JsonVal.str "NoDecision") ∧
      (batchShared lib policies entities_str schema_str (verbose.getD false)).errs ≠ [] ∧
      ("policy parse errors:\n" ++ msg) ∈
        (batchShared lib policies entities_str schema_str (verbose.getD false)).errs ∧
      r.getField "diagnostics" =
        some (JsonVal.obj [("errors", JsonVal.arr
          (((batchShared lib policies entities_str schema_str (verbose.getD false)).errs).map
            JsonVal.str))]) := by
  obtain ⟨as, has, rfl⟩ :=
    batch_some_elim lib t requests policies entities_str schema_str verbose l hl
  intro r hr
  obtain ⟨tail, htail⟩ := batchShared_errs_policy_fail lib policies entities_str schema_str
    (verbose.getD false) msg hpol
  have herrs : (batchShared lib policies entities_str schema_str (verbose.getD false)).errs ≠ [] := by
    rw [htail]; exact List.cons_ne_nil _ _
  obtain ⟨j, args, hmem, rfl⟩ := mem_eval_items lib t _ _ 0 as r hr
  rw [processItem_of_errs lib t _ _ j args herrs]
  refine ⟨rfl, getField_errors_decision _, herrs, ?_, ?_⟩
  · rw [htail]; exact List.mem_cons_self _ _
  · simp [make_authz_result_for_errors, JsonVal.getField, lookupField, stringify_errors]

/-- C2 (witness): the poisoning conclusion evaluated on a concrete batch
whose policy text fails to parse. -/
theorem c2_policy_poison_witness :
    make_authz_result_for_errors ["policy parse errors:\nbad policy"] =
      make_authz_result_for_errors (batchShared badPolicyLib "p" "e" none false).errs ∧
    (make_authz_result_for_errors ["policy parse errors:\nbad policy"]).getField "decision" =
      some (JsonVal.str "NoDecision") ∧
    (batchShared badPolicyLib "p" "e" none false).errs ≠ [] ∧
    ("policy parse errors:\n" ++ "bad policy") ∈ (batchShared badPolicyLib "p" "e" none false).errs ∧
    (make_authz_result_for_errors ["policy parse errors:\nbad policy"]).getField "diagnostics" =
      some (JsonVal.obj [("errors", JsonVal.arr
        (((batchShared badPolicyLib "p" "e" none false).errs).map JsonVal.str))]) :=
  c2_policy_poison badPolicyLib t0 [rawGood] "p" "e" none none "bad policy" rfl
    [make_authz_result_for_errors ["policy parse errors:\nbad policy"]] rfl
    (make_authz_result_for_errors ["policy parse errors:\nbad policy"])
    (List.mem_singleton.mpr rfl)

/-- C7: entity-store build failure is fatal to the whole batch: when
parsing the entity JSON fails, the recorded error joins the shared error
list, the store falls back to empty, and every response of the batch is
the shared-error `NoDecision` result; by contrast, when policy and entity
parsing succeed the shared error list is empty regardless of how schema
parsing fared, so schema failure alone never poisons the batch. -/
theorem c7_entity_failure_poisons (lib : CedarLib P S E U C R) (t : Timings)
    (requests : List RawRequest) (policies entities_str : String)
    (schema_str : Option String) (verbose : Option Bool) (msg : String)
    (hent : load_entities lib entities_str
        (make_schema lib schema_str (verbose.getD false)) = .error msg) :
    (batchShared lib policies entities_str schema_str (verbose.getD false)).entities =
      lib.emptyEntities ∧
    msg ∈ (batchShared lib policies entities_str schema_str (verbose.getD false)).errs ∧
    (∀ l, is_authorized_batch lib t requests policies entities_str schema_str verbose = some l →
      ∀ r ∈ l,
        r = make_authz_result_for_errors
              (batchShared lib policies entities_str schema_str (verbose.getD false)).errs ∧
        r.getField "decision" = some (JsonVal.str "NoDecision")) ∧
    (∀ (lib2 : CedarLib P S E U C R) (p2 e2 : String) (s2 : Option String) (v2 : Bool),
      (∃ ps, lib2.policySetFromStr p2 = .ok ps) →
      (∃ ents, lib2.entitiesFromJsonStr e2 (make_schema lib2 s2 v2) = .ok ents) →
      (batchShared lib2 p2 e2 s2 v2).errs = []) := by
  obtain ⟨hempty, hmem, hne⟩ := batchShared_entity_fail lib policies entities_str schema_str
    (verbose.getD false) msg hent
  refine ⟨hempty, hmem, ?_, ?_⟩
  · intro l hl r hr
    obtain ⟨as, has, rfl⟩ :=
      batch_some_elim lib t requests policies entities_str schema_str verbose l hl
    obtain ⟨j, args, hmemArgs, rfl⟩ := mem_eval_items lib t _ _ 0 as r hr
    rw [processItem_of_errs lib t _ _ j args hne]
    exact ⟨rfl, getField_errors_decision _⟩
  · intro lib2 p2 e2 s2 v2 hp he
    exact batchShared_errs_nil lib2 p2 e2 s2 v2 hp he

/-- C7 (witness): the poisoning conclusion evaluated on a concrete batch
whose entity JSON fails to parse, plus the schema-contrast conclusion on a
batch where both policy and entity parsing succeed. -/
theorem c7_entity_failure_poisons_witness :
    (batchShared badEntLib "p" "e" none false).entities = badEntLib.emptyEntities ∧
    "failed to parse entities from:\ne" ∈ (batchShared badEntLib "p" "e" none false).errs ∧
    (make_authz_result_for_errors ["failed to parse entities from:\ne"]).getField "decision" =
      some (JsonVal.str "NoDecision") ∧
    (batchShared okLib "p" "e" none false).errs = [] := by
  have h := c7_entity_failure_poisons badEntLib t0 [rawGood] "p" "e" none none
    "failed to parse entities from:\ne" rfl
  refine ⟨h.1, h.2.1, ?_, ?_⟩
  · exact (h.2.2.1 [make_authz_result_for_errors ["failed to parse entities from:\ne"]] rfl
      (make_authz_result_for_errors ["failed to parse entities from:\ne"])
      (List.mem_singleton.mpr rfl)).2
  · exact h.2.2.2 okLib "p" "e" none false ⟨(), rfl⟩ ⟨(), rfl⟩

/-- C8: `EvaluationRequest` construction is atomic: failure of any one of
the principal, action or resource identifier parses, or of the context
parse, makes `get_request` fail as a whole; a failed construction makes
`execute_authorization_request` return errors without any oracle output,
and the oracle result is used only when `get_request` fully succeeded. -/
theorem c8_request_atomicity (lib : CedarLib P S E U C R) (args : RequestArgs)
    (sch : Option S) (b a : Nat) (ps : P) (ents : E) (v : Bool) :
    ((∃ e, lib.parseEntityUid args.principal = .error e) →
        args.get_request lib sch = .error "Failed to parse principal as entity Uid") ∧
    ((∃ e, lib.parseEntityUid args.action = .error e) →
        ∃ m, args.get_request lib sch = .error m) ∧
    ((∃ e, lib.parseEntityUid args.resource = .error e) →
        ∃ m, args.get_request lib sch = .error m) ∧
    (∀ cj, args.context_json = some cj →
      (∀ act, ∃ e, lib.contextFromJsonStr cj (sch.map (fun s => (s, act))) = .error e) →
      ∃ m, args.get_request lib sch = .error m) ∧
    (∀ m, args.get_request lib sch = .error m →
      execute_authorization_request lib b a args ps ents sch v =
        .error ["failed to parse schema from request"]) ∧
    (∀ ans, execute_authorization_request lib b a args ps ents sch v = .ok ans →
      ∃ req, args.get_request lib sch = .ok req ∧
        ans = AuthzResponse.new (lib.isAuthorized req ps ents)
          [("build_request_duration_micros", b), ("authz_duration_micros", a)]
          args.correlation_id) := by
  refine ⟨?_, ?_, ?_, ?_, ?_, ?_⟩
  · rintro ⟨e, he⟩
    simp [RequestArgs.get_request, he]
  · rintro ⟨e, he⟩
    cases hp : lib.parseEntityUid args.principal with
    | error ep => exact ⟨"Failed to parse principal as entity Uid",
        by simp [RequestArgs.get_request, hp]⟩
    | ok up => exact ⟨"Failed to parse action as entity Uid",
        by simp [RequestArgs.get_request, hp, he]⟩
  · rintro ⟨e, he⟩
    cases hp : lib.parseEntityUid args.principal with
    | error ep => exact ⟨"Failed to parse principal as entity Uid",
        by simp [RequestArgs.get_request, hp]⟩
    | ok up =>
      cases ha : lib.parseEntityUid args.action with
      | error ea => exact ⟨"Failed to parse action as entity Uid",
          by simp [RequestArgs.get_request, hp, ha]⟩
      | ok ua => exact ⟨"Failed to parse resource as entity Uid",
          by simp [RequestArgs.get_request, hp, ha, he]⟩
  · intro cj hcj hctx
    cases hp : lib.parseEntityUid args.principal with
    | error ep => exact ⟨"Failed to parse principal as entity Uid",
        by simp [RequestArgs.get_request, hp]⟩
    | ok up =>
      cases ha : lib.parseEntityUid args.action with
      | error ea => exact ⟨"Failed to parse action as entity Uid",
          by simp [RequestArgs.get_request, hp, ha]⟩
      | ok ua =>
        cases hr : lib.parseEntityUid args.resource with
        | error er => exact ⟨"Failed to parse resource as entity Uid",
            by simp [RequestArgs.get_request, hp, ha, hr]⟩
        | ok ur =>
          obtain ⟨e, he⟩ := hctx ua
          exact ⟨e, by simp [RequestArgs.get_request, hp, ha, hr, hcj, he]⟩
  · intro m h
    simp [execute_authorization_request, h]
  · intro ans h
    unfold execute_authorization_request at h
    cases hq : args.get_request lib sch with
    | error e => rw [hq] at h; exact Except.noConfusion h
    | ok req =>
      rw [hq] at h
      exact ⟨req, rfl, (Except.ok.inj h).symm⟩

/-- C8 (witness): with a failing identifier parser, `get_request` fails as
a whole and `execute_authorization_request` returns only the error. -/
theorem c8_request_atomicity_witness :
    requestArgsGood.get_request badUidLib none =
      .error "Failed to parse principal as entity Uid" ∧
    execute_authorization_request badUidLib 0 0 requestArgsGood () () none false =
      .error ["failed to parse schema from request"] := by
  have h := c8_request_atomicity badUidLib requestArgsGood none 0 0 () () false
  have h1 := h.1 ⟨"bad uid", rfl⟩
  exact ⟨h1, h.2.2.2.2.1 "Failed to parse principal as entity Uid" h1⟩

/-- C4 (counterexample): a request that supplies `correlation_id "req-42"`
but whose principal fails to parse receives a `NoDecision` response with
no correlation id at all, so the claimed passthrough on `NoDecision`
responses fails. -/
theorem c4_correlation_counterexample :
    rawWithCid.correlation_id = some "req-42" ∧
    is_authorized_batch badUidLib t0 [rawWithCid] "p" "e" none none =
      some [make_authz_result_for_errors ["failed to parse schema from request"]] ∧
    (make_authz_result_for_errors ["failed to parse schema from request"]).getField
        "correlation_id" = none :=
  ⟨rfl, rfl, rfl⟩

/-- C4 (amended): whenever a response carries a correlation id, it is
exactly the one supplied with the corresponding request (JSON `null` when
none was supplied); `NoDecision` responses never carry a correlation id
field, even when the request supplied one. -/
theorem c4_correlation_amended (lib : CedarLib P S E U C R) (t : Timings)
    (requests : List RawRequest) (policies entities_str : String)
    (schema_str : Option String) (verbose : Option Bool) (l : List JsonVal)
    (hl : is_authorized_batch lib t requests policies entities_str schema_str verbose = some l)
    (i : Nat) (hi : i < l.length) (hr : i < requests.length) (args : RequestArgs)
    (hargs : to_request_args (requests.get ⟨i, hr⟩) = some args) :
    (∀ v, (l.get ⟨i, hi⟩).getField "correlation_id" = some v →
        v = (match args.correlation_id with
             | none => JsonVal.null
             | some s => JsonVal.str s)) ∧
    ((l.get ⟨i, hi⟩).getField "decision" = some (JsonVal.str "NoDecision") →
        (l.get ⟨i, hi⟩).getField "correlation_id" = none) := by
  obtain ⟨as, has, hleq⟩ :=
    batch_some_elim lib t requests policies entities_str schema_str verbose l hl
  subst hleq
  obtain ⟨hlen, hget⟩ := build_request_args_get requests as has
  have hj' : i < as.length := by rw [hlen]; exact hr
  have hargs2 : as.get ⟨i, hj'⟩ = args := by
    have hx := hget i hj' hr
    rw [hargs] at hx
    exact (Option.some.inj hx).symm
  have hresp : (eval_items lib t
        (batchShared lib policies entities_str schema_str (verbose.getD false))
        (verbose.getD false) 0 as).get ⟨i, hi⟩ =
      processItem lib t
        (batchShared lib policies entities_str schema_str (verbose.getD false))
        (verbose.getD false) i args := by
    have hx := eval_items_get lib t
      (batchShared lib policies entities_str schema_str (verbose.getD false))
      (verbose.getD false) as 0 i hi hj'
    rw [Nat.zero_add, hargs2] at hx
    exact hx
  rcases processItem_shape lib t
      (batchShared lib policies entities_str schema_str (verbose.getD false))
      (verbose.getD false) i args with ⟨es, hx⟩ | ⟨d, rs0, errs0, hx⟩
  · constructor
    · intro v hv
      rw [hresp, hx, getField_errors_cid] at hv
      exact Option.noConfusion hv
    · intro _
      rw [hresp, hx, getField_errors_cid]
  · constructor
    · intro v hv
      rw [hresp, hx, getField_response_cid] at hv
      exact (Option.some.inj hv).symm
    · intro hdec
      rw [hresp, hx, getField_response_decision] at hdec
      have hne := Option.some.inj hdec
      cases d <;> simp at hne


/-- C4 (witness): on a successfully evaluated request the correlation id
is passed through exactly. -/
theorem c4_correlation_amended_witness :
    JsonVal.str "req-42" =
      (match (some "req-42" : Option String) with
       | none => JsonVal.null
       | some s => JsonVal.str s) :=
  (c4_correlation_amended okLib t0 [rawWithCid] "p" "e" none none _ rfl 0
      (by decide) (by decide) _ rfl).1 (JsonVal.str "req-42") rfl

/-- C5 (counterexample): in a poisoned batch (unparsable policy text) the
items' `NoDecision` responses carry no metrics at all, so metrics are not
attached to every response. -/
theorem c5_metrics_counterexample :
    is_authorized_batch badPolicyLib t0 [rawGood] "p" "e" none none =
      some [make_authz_result_for_errors ["policy parse errors:\nbad policy"]] ∧
    (make_authz_result_for_errors ["policy parse errors:\nbad policy"]).getField
        "metrics" = none :=
  ⟨rfl, rfl⟩

/-- C5 (amended): whenever a response carries a metrics field, that field
holds exactly the item's own build/evaluate durations merged with the
three batch-shared stage durations (policy parse, schema parse, entity
load); `NoDecision` error responses carry no metrics field. -/
theorem c5_metrics_amended (lib : CedarLib P S E U C R) (t : Timings)
    (requests : List RawRequest) (policies entities_str : String)
    (schema_str : Option String) (verbose : Option Bool) (l : List JsonVal)
    (hl : is_authorized_batch lib t requests policies entities_str schema_str verbose = some l)
    (i : Nat) (hi : i < l.length) (hr : i < requests.length) (args : RequestArgs)
    (hargs : to_request_args (requests.get ⟨i, hr⟩) = some args) :
    ((l.get ⟨i, hi⟩).getField "decision" = some (JsonVal.str "NoDecision") →
        (l.get ⟨i, hi⟩).getField "metrics" = none) ∧
    (∀ m, (l.get ⟨i, hi⟩).getField "metrics" = some m →
        m = JsonVal.obj
          [("build_request_duration_micros", JsonVal.num (t.build_request_d i)),
           ("authz_duration_micros", JsonVal.num (t.authz_d i)),
           ("parse_policies_duration_micros", JsonVal.num t.parse_policies_d),
           ("parse_schema_duration_micros", JsonVal.num t.parse_schema_d),
           ("load_entities_duration_micros", JsonVal.num t.load_entities_d)]) := by
  obtain ⟨as, has, hleq⟩ :=
    batch_some_elim lib t requests policies entities_str schema_str verbose l hl
  subst hleq
  obtain ⟨hlen, hget⟩ := build_request_args_get requests as has
  have hj' : i < as.length := by rw [hlen]; exact hr
  have hargs2 : as.get ⟨i, hj'⟩ = args := by
    have hx := hget i hj' hr
    rw [hargs] at hx
    exact (Option.some.inj hx).symm
  have hresp : (eval_items lib t
        (batchShared lib policies entities_str schema_str (verbose.getD false))
        (verbose.getD false) 0 as).get ⟨i, hi⟩ =
      processItem lib t
        (batchShared lib policies entities_str schema_str (verbose.getD false))
        (verbose.getD false) i args := by
    have hx := eval_items_get lib t
      (batchShared lib policies entities_str schema_str (verbose.getD false))
      (verbose.getD false) as 0 i hi hj'
    rw [Nat.zero_add, hargs2] at hx
    exact hx
  rcases processItem_shape lib t
      (batchShared lib policies entities_str schema_str (verbose.getD false))
      (verbose.getD false) i args with ⟨es, hx⟩ | ⟨d, rs0, errs0, hx⟩
  · constructor
    · intro _
      rw [hresp, hx, getField_errors_metrics]
    · intro m hm
      rw [hresp, hx, getField_errors_metrics] at hm
      exact Option.noConfusion hm
  · constructor
    · intro hdec
      rw [hresp, hx, getField_response_decision] at hdec
      have hne := Option.some.inj hdec
      cases d <;> simp at hne
    · intro m hm
      rw [hresp, hx, getField_response_metrics] at hm
      exact (Option.some.inj hm).symm

/-- C5 (witness): on a successfully evaluated request the metrics field
holds the five stage durations. -/
theorem c5_metrics_amended_witness :
    JsonVal.obj
        [("build_request_duration_micros", JsonVal.num 0),
         ("authz_duration_micros", JsonVal.num 0),
         ("parse_policies_duration_micros", JsonVal.num 0),
         ("parse_schema_duration_micros", JsonVal.num 0),
         ("load_entities_duration_micros", JsonVal.num 0)] =
      JsonVal.obj
        [("build_request_duration_micros", JsonVal.num (t0.build_request_d 0)),
         ("authz_duration_micros", JsonVal.num (t0.authz_d 0)),
         ("parse_policies_duration_micros", JsonVal.num t0.parse_policies_d),
         ("parse_schema_duration_micros", JsonVal.num t0.parse_schema_d),
         ("load_entities_duration_micros", JsonVal.num t0.load_entities_d)] :=
  (c5_metrics_amended okLib t0 [rawGood] "p" "e" none none _ rfl 0
      (by decide) (by decide) _ rfl).2
    (JsonVal.obj
        [("build_request_duration_micros", JsonVal.num 0),
         ("authz_duration_micros", JsonVal.num 0),
         ("parse_policies_duration_micros", JsonVal.num 0),
         ("parse_schema_duration_micros", JsonVal.num 0),
         ("load_entities_duration_micros", JsonVal.num 0)]) rfl

/-- C10: every `NoDecision` response is the fixed error document — a JSON
object with exactly a `decision` field equal to `"NoDecision"` and a
`diagnostics` object holding only the `errors` list of stringified errors
(no correlation id, no metrics, no reason) — and every response of a batch
whose decision is `NoDecision` is such a document, on every error path. -/
theorem c10_nodecision_shape :
    (∀ es : List String, make_authz_result_for_errors es =
        JsonVal.obj
          [("decision", JsonVal.str "NoDecision"),
           ("diagnostics", JsonVal.obj
              [("errors", JsonVal.arr (es.map JsonVal.str))])]) ∧
    (∀ (A B D F G H : Type) (lib : CedarLib A B D F G H) (t : Timings)
        (requests : List RawRequest) (policies entities_str : String)
        (schema_str : Option String) (verbose : Option Bool) (l : List JsonVal),
      is_authorized_batch lib t requests policies entities_str schema_str verbose = some l →
      ∀ r ∈ l, r.getField "decision" = some (JsonVal.str "NoDecision") →
        ∃ es, r = make_authz_result_for_errors es) := by
  constructor
  · intro es
    simp [make_authz_result_for_errors, stringify_errors]
  · intro A B D F G H lib t requests policies entities_str schema_str verbose l hl r hr hdec
    obtain ⟨as, has, hleq⟩ :=
      batch_some_elim lib t requests policies entities_str schema_str verbose l hl
    subst hleq
    obtain ⟨j, args, hmem, hreq⟩ := mem_eval_items lib t _ _ 0 as r hr
    subst hreq
    rcases processItem_shape lib t
        (batchShared lib policies entities_str schema_str (verbose.getD false))
        (verbose.getD false) j args with ⟨es, hx⟩ | ⟨d, rs0, errs0, hx⟩
    · exact ⟨es, hx⟩
    · rw [hx, getField_response_decision] at hdec
      have hne := Option.some.inj hdec
      cases d <;> simp at hne

/-- C10 (witness): the shape conclusion applied to a concrete poisoned
batch's single `NoDecision` response. -/
theorem c10_nodecision_shape_witness :
    ∃ es, make_authz_result_for_errors ["policy parse errors:\nbad policy"] =
      make_authz_result_for_errors es :=
  c10_nodecision_shape.2 Unit Unit Unit Unit Unit Unit badPolicyLib t0 [rawGood]
    "p" "e" none none
    [make_authz_result_for_errors ["policy parse errors:\nbad policy"]] rfl
    (make_authz_result_for_errors ["policy parse errors:\nbad policy"])
    (List.mem_singleton.mpr rfl) rfl

end CedarPy
